import Mathlib

/-!
Verification of the codeflow/loopflow workflow core: a shallow embedding of
the team fan-out (`Team.query_parallel`), the phase jobs (Clarify, Draft,
Review, Synthesize), the sequential composer, path-identity reconciliation
(`Synthesize._get_draft_by_path`), the session envelope (`Session.run`,
`Session._setup_team` / `setup_team`, `Session._write_outputs`) and the
model-handle bookkeeping (`LLM.chat`, `UsageStats.track`).

Python dicts are modelled as insertion-ordered association lists with
update-in-place semantics (`dset`/`dget`), Python `pathlib.Path` keys versus
plain-string keys as the two-constructor type `PKey`, and `Path.resolve()`
as an explicit canonicalisation parameter `res : String → String`.
Exceptions are modelled by `Except` with an explicit value type `PyExn`
mirroring the exception classes of the source.
-/

set_option autoImplicit false

namespace Codeflow

/-! ## Python dict model -/

/-- Python dict assignment `d[k] = v`: update in place if the key is present
(keeping its position), else append at the end (insertion order). -/
def dset {κ α : Type} [DecidableEq κ] : List (κ × α) → κ → α → List (κ × α)
  | [], k, v => [(k, v)]
  | (k', v') :: rest, k, v =>
      if k' = k then (k', v) :: rest else (k', v') :: dset rest k v

/-- Python dict lookup `d.get(k)` / `k in d`. -/
def dget {κ α : Type} [DecidableEq κ] : List (κ × α) → κ → Option α
  | [], _ => none
  | (k', v') :: rest, k => if k' = k then some v' else dget rest k

/-- Python `d.keys()` in insertion order. -/
def dkeys {κ α : Type} (d : List (κ × α)) : List κ := d.map Prod.fst

/-- Python `del d[k]` (removes every binding of `k`; dicts hold at most one). -/
def derase {κ α : Type} [DecidableEq κ] (d : List (κ × α)) (k : κ) : List (κ × α) :=
  d.filter (fun p => p.1 ≠ k)

theorem dget_eq_none {κ α : Type} [DecidableEq κ] (d : List (κ × α)) (k : κ)
    (h : k ∉ dkeys d) : dget d k = none := by
  induction d with
  | nil => rfl
  | cons hd tl ih =>
      simp only [dkeys, List.map_cons, List.mem_cons] at h
      push_neg at h
      simp only [dget, if_neg (Ne.symm h.1)]
      exact ih h.2

theorem dkeys_dset_mem {κ α : Type} [DecidableEq κ] (d : List (κ × α)) (k : κ) (v : α)
    (h : k ∈ dkeys d) : dkeys (dset d k v) = dkeys d := by
  induction d with
  | nil => exact absurd h (by simp [dkeys])
  | cons hd tl ih =>
      by_cases hk : hd.1 = k
      · cases hd; simp_all [dset, dkeys]
      · simp only [dkeys, List.map_cons, List.mem_cons] at h
        rcases h with h | h
        · exact absurd h.symm hk
        · cases hd; simp_all [dset, dkeys]

theorem dkeys_dset_not_mem {κ α : Type} [DecidableEq κ] (d : List (κ × α)) (k : κ) (v : α)
    (h : k ∉ dkeys d) : dkeys (dset d k v) = dkeys d ++ [k] := by
  induction d with
  | nil => rfl
  | cons hd tl ih =>
      simp only [dkeys, List.map_cons, List.mem_cons] at h
      push_neg at h
      have h2 := ih h.2
      obtain ⟨k', v'⟩ := hd
      simp only at h
      unfold dset
      rw [if_neg (Ne.symm h.1)]
      simp only [dkeys, List.map_cons, List.cons_append]
      exact congrArg (k' :: ·) h2

theorem dget_dset_self {κ α : Type} [DecidableEq κ] (d : List (κ × α)) (k : κ) (v : α) :
    dget (dset d k v) k = some v := by
  induction d with
  | nil => simp [dset, dget]
  | cons hd tl ih =>
      by_cases hk : hd.1 = k
      · cases hd; simp_all [dset, dget]
      · cases hd; simp_all [dset, dget]

theorem dget_dset_ne {κ α : Type} [DecidableEq κ] (d : List (κ × α)) (k k' : κ) (v : α)
    (h : k ≠ k') : dget (dset d k v) k' = dget d k' := by
  induction d with
  | nil => simp [dset, dget, h]
  | cons hd tl ih =>
      by_cases hk : hd.1 = k
      · cases hd
        simp only at hk
        subst hk
        simp [dset, dget, h]
      · cases hd; simp_all [dset, dget]

/-! ## Path keys

A key of a drafts/outputs dict is either a plain string or a
`pathlib.Path`; both are identified by their string form `str(k)`.
`Path(s) == Path(t)` is modelled as equality of the string forms, and a
`Path` never equals a `str` (as in Python). `Path.resolve()` is an
explicit parameter `res : String → String`. -/

inductive PKey : Type
  | pstr (s : String)
  | ppath (s : String)
deriving DecidableEq

/-- `str(k)`: the string form of a key. -/
def PKey.str : PKey → String
  | .pstr s => s
  | .ppath s => s

/-- `Path(k)`: coerce a key to a `pathlib.Path` (identity on paths). -/
def PKey.toPath : PKey → PKey
  | .pstr s => .ppath s
  | .ppath s => .ppath s

/-! ## Exceptions and error contexts -/

/-- The structured context dict attached to a `WorkflowError` /
`JobError`. Absent dict entries are `none`. -/
structure ErrCtx : Type where
  error : Option String
  stage : Option String
  file : Option String
  available_drafts : Option (List (String × List String))
  author : Option String
  reviewer : Option String
deriving DecidableEq

/-- The empty `WorkflowError` context. -/
def ErrCtx.empty : ErrCtx :=
  { error := none, stage := none, file := none, available_drafts := none
    author := none, reviewer := none }

/-- Token usage counters of one provider (`UsageStats`). -/
structure UsageStats : Type where
  input_tokens : Nat
  output_tokens : Nat
deriving DecidableEq

/-- `UsageStats.track`: add one interaction's reported token counts. -/
def UsageStats.track (u : UsageStats) (i o : Nat) : UsageStats :=
  { input_tokens := u.input_tokens + i, output_tokens := u.output_tokens + o }

/-- The structured context dict attached to a `SessionError`. -/
structure SessCtx : Type where
  status : Option String
  error : Option String
  execution_time : Option Int
  usage : Option UsageStats
  requested : Option (List String)
  available : Option (List String)
  attempted_files : Option (List String)
deriving DecidableEq

/-- The empty `SessionError` context (loopflow `_setup_team` raises with `\x7b\x7d`). -/
def SessCtx.empty : SessCtx :=
  { status := none, error := none, execution_time := none, usage := none
    requested := none, available := none, attempted_files := none }

/-- Python exception values that cross the boundaries of the modelled core:
`asyncio.TimeoutError`, `WorkflowError`/`JobError`, `SessionError`, and
any other exception carrying only its message. -/
inductive PyExn : Type
  | timeoutError
  | workflowError (msg : String) (ctx : ErrCtx)
  | sessionError (msg : String) (ctx : SessCtx)
  | generic (msg : String)
deriving DecidableEq

/-- The Python class name of the exception: what `except <Class>` /
`isinstance` can branch on. -/
def PyExn.kindName : PyExn → String
  | .timeoutError => "TimeoutError"
  | .workflowError _ _ => "WorkflowError"
  | .sessionError _ _ => "SessionError"
  | .generic _ => "Exception"

/-- `str(e)`: `str(asyncio.TimeoutError())` is empty; `WorkflowError.__init__`
passes its message to `Exception`; `SessionError.__init__` passes
`"Session failed: " + message`. -/
def PyExn.str : PyExn → String
  | .timeoutError => ""
  | .workflowError msg _ => msg
  | .sessionError msg _ => "Session failed: " ++ msg
  | .generic msg => msg

/-! ## Team.query_parallel  (src/loopflow/llm/team.py 15-35, identical copy
in src/loopflow/team.py 17-37)

The member dict `self.llms` is modelled by its key list (insertion order);
`llm.chat` by a behaviour function `chat : name → prompt → Except msg text`
(`.error m` models the awaited task raising an exception `e` with
`str(e) = m`, captured individually by `gather(..., return_exceptions=True)`);
`prompt_template.format(name=name, **args)` by `render : name → prompt`.
The second component of the result is the list of `chat` calls issued
(one task per member, in dict order). -/

def queryParallel (members : List String) (render : String → String)
    (chat : String → String → Except String String) :
    List (String × String) × List (String × String) :=
  let calls := members.map (fun name => (name, render name))
  let results := calls.foldl (fun acc c =>
      match chat c.1 c.2 with
      | .ok response => dset acc c.1 response
      | .error e => dset acc c.1 ("Error: " ++ e)) []
  (results, calls)

/-- The single result entry computed for one member. -/
def memberResult (chat : String → String → Except String String)
    (render : String → String) (name : String) : String :=
  match chat name (render name) with
  | .ok response => response
  | .error e => "Error: " ++ e

theorem queryParallel_foldl (members : List String) (render : String → String)
    (chat : String → String → Except String String) (acc : List (String × String)) :
    (members.map (fun name => (name, render name))).foldl (fun acc c =>
      match chat c.1 c.2 with
      | .ok response => dset acc c.1 response
      | .error e => dset acc c.1 ("Error: " ++ e)) acc
    = members.foldl (fun acc name => dset acc name (memberResult chat render name)) acc := by
  induction members generalizing acc with
  | nil => rfl
  | cons hd tl ih =>
      simp only [List.map_cons, List.foldl_cons, memberResult]
      cases chat hd (render hd) <;> exact ih _

theorem dget_foldl_dset_not_mem (tl : List String) (f : String → String)
    (acc : List (String × String)) (name : String) (h : name ∉ tl) :
    dget (tl.foldl (fun acc n => dset acc n (f n)) acc) name = dget acc name := by
  induction tl generalizing acc with
  | nil => rfl
  | cons hd tl ih =>
      simp only [List.mem_cons] at h
      push_neg at h
      simp only [List.foldl_cons]
      rw [ih _ h.2, dget_dset_ne _ _ _ _ (Ne.symm h.1)]

theorem dget_foldl_dset_mem (f : String → String) (name : String) :
    ∀ tl : List String, name ∈ tl → tl.Nodup → ∀ acc : List (String × String),
      dget (tl.foldl (fun acc n => dset acc n (f n)) acc) name = some (f name) := by
  intro tl
  induction tl with
  | nil => intro hmem; cases hmem
  | cons hd tl ih =>
      intro hmem hnd acc
      simp only [List.foldl_cons]
      rcases List.mem_cons.mp hmem with h | h
      · subst h
        rw [dget_foldl_dset_not_mem _ _ _ _ (List.nodup_cons.mp hnd).1]
        exact dget_dset_self _ _ _
      · exact ih h (List.nodup_cons.mp hnd).2 _

theorem queryParallel_dget (members : List String) (render : String → String)
    (chat : String → String → Except String String) (name : String)
    (hmem : name ∈ members) (hnd : members.Nodup) :
    dget (queryParallel members render chat).1 name
      = some (memberResult chat render name) := by
  unfold queryParallel
  simp only
  rw [queryParallel_foldl]
  exact dget_foldl_dset_mem (memberResult chat render) name members hmem hnd []

theorem dkeys_foldl_dset (tl : List String) (f : String → String)
    (acc : List (String × String)) (h : ∀ n ∈ tl, n ∉ dkeys acc) (hnd : tl.Nodup) :
    dkeys (tl.foldl (fun acc n => dset acc n (f n)) acc) = dkeys acc ++ tl := by
  induction tl generalizing acc with
  | nil => simp
  | cons hd tl ih =>
      simp only [List.foldl_cons]
      have h1 : hd ∉ dkeys acc := h hd (List.mem_cons_self hd tl)
      rw [ih (dset acc hd (f hd))
        (fun n hn => by
          rw [dkeys_dset_not_mem _ _ _ h1]
          simp only [List.mem_append, List.mem_singleton]
          push_neg
          refine ⟨h n (List.mem_cons_of_mem _ hn), ?_⟩
          intro hEq
          exact (List.nodup_cons.mp hnd).1 (hEq ▸ hn))
        (List.nodup_cons.mp hnd).2]
      rw [dkeys_dset_not_mem _ _ _ h1]
      simp

/-! ### C3 / C4 -/

/-- C3: In `query_parallel`, a member whose `chat` call raises `e` gets the
entry `"Error: " + str(e)`, every member whose call succeeds keeps its
response text unchanged, and the batch never aborts (the result is a total
map, produced for every behaviour). -/
theorem query_parallel_isolates_member_failures
    (members : List String) (render : String → String)
    (chat : String → String → Except String String)
    (hnd : members.Nodup) :
    (∀ name e, name ∈ members → chat name (render name) = .error e →
      dget (queryParallel members render chat).1 name = some ("Error: " ++ e)) ∧
    (∀ name r, name ∈ members → chat name (render name) = .ok r →
      dget (queryParallel members render chat).1 name = some r) := by
  constructor
  · intro name e hmem hchat
    rw [queryParallel_dget members render chat name hmem hnd]
    simp [memberResult, hchat]
  · intro name r hmem hchat
    rw [queryParallel_dget members render chat name hmem hnd]
    simp [memberResult, hchat]

theorem query_parallel_isolates_member_failures_witness :
    (["alice", "bob"] : List String).Nodup ∧
    (dget (queryParallel ["alice", "bob"] (fun n => "hi " ++ n)
        (fun n _ => if n = "alice" then .error "boom" else .ok "fine")).1 "alice"
      = some "Error: boom") ∧
    (dget (queryParallel ["alice", "bob"] (fun n => "hi " ++ n)
        (fun n _ => if n = "alice" then .error "boom" else .ok "fine")).1 "bob"
      = some "fine") := by
  refine ⟨by decide, ?_, ?_⟩
  · exact (query_parallel_isolates_member_failures ["alice", "bob"] (fun n => "hi " ++ n)
      (fun n _ => if n = "alice" then .error "boom" else .ok "fine") (by decide)).1
      "alice" "boom" (by decide) rfl
  · exact (query_parallel_isolates_member_failures ["alice", "bob"] (fun n => "hi " ++ n)
      (fun n _ => if n = "alice" then .error "boom" else .ok "fine") (by decide)).2
      "bob" "fine" (by decide) rfl

/-- C4: the result map of `query_parallel` has exactly one entry per team
member (its key list is the member-name list), and an empty team yields an
empty map with zero `chat` calls issued. -/
theorem query_parallel_one_entry_per_member
    (members : List String) (render : String → String)
    (chat : String → String → Except String String)
    (hnd : members.Nodup) :
    dkeys (queryParallel members render chat).1 = members ∧
    (queryParallel [] render chat).1 = [] ∧
    (queryParallel [] render chat).2 = [] := by
  refine ⟨?_, rfl, rfl⟩
  unfold queryParallel
  simp only
  rw [queryParallel_foldl]
  have := dkeys_foldl_dset members (memberResult chat render) []
    (fun n _ => by simp [dkeys]) hnd
  simpa [dkeys] using this

theorem query_parallel_one_entry_per_member_witness :
    (["alice", "bob"] : List String).Nodup ∧
    dkeys (queryParallel ["alice", "bob"] (fun _ => "p")
      (fun _ _ => Except.ok "r")).1 = ["alice", "bob"] :=
  ⟨by decide,
    (query_parallel_one_entry_per_member ["alice", "bob"] (fun _ => "p")
      (fun _ _ => Except.ok "r") (by decide)).1⟩

/-! ## LLM.chat  (src/loopflow/llm/llm.py 98-117)

One model handle's mutable state is its conversation `history` plus the
owning provider's `UsageStats` (mutated through `provider.track`).  The
underlying `_chat` provider call is a behaviour parameter: `.ok (response,
input_tokens, output_tokens)` or `.error` with the exception message.  In
the source, both mutations (`provider.track`, `history.append`) happen
strictly after `_chat` returns, so a raising `_chat` leaves the state
untouched; the returned pair is (outcome, post-state). -/

structure Interaction : Type where
  prompt : String
  response : String
deriving DecidableEq

structure LLMState : Type where
  history : List Interaction
  providerUsage : UsageStats
deriving DecidableEq

def LLM.chat (st : LLMState) (prompt : String)
    (uchat : Except String (String × Nat × Nat)) :
    Except String String × LLMState :=
  match uchat with
  | .error e => (.error e, st)
  | .ok (response, input_tokens, output_tokens) =>
      (.ok response,
        { history := st.history ++ [{ prompt := prompt, response := response }]
          providerUsage := st.providerUsage.track input_tokens output_tokens })

/-! ### C10 -/

/-- C10: a successful `chat` appends exactly one (prompt, response)
interaction to the history and adds exactly the reported token counts to
the provider's `UsageStats`; a failing `_chat` leaves history and usage
counters completely unchanged. -/
theorem llm_chat_history_usage_atomic (st : LLMState) (prompt : String)
    (uchat : Except String (String × Nat × Nat)) :
    (∀ r i o, uchat = .ok (r, i, o) →
      (LLM.chat st prompt uchat).1 = .ok r ∧
      (LLM.chat st prompt uchat).2.history
        = st.history ++ [{ prompt := prompt, response := r }] ∧
      (LLM.chat st prompt uchat).2.providerUsage.input_tokens
        = st.providerUsage.input_tokens + i ∧
      (LLM.chat st prompt uchat).2.providerUsage.output_tokens
        = st.providerUsage.output_tokens + o) ∧
    (∀ e, uchat = .error e → LLM.chat st prompt uchat = (.error e, st)) := by
  constructor
  · intro r i o h
    subst h
    exact ⟨rfl, rfl, rfl, rfl⟩
  · intro e h
    subst h
    rfl

theorem llm_chat_history_usage_atomic_witness :
    (LLM.chat ⟨[], ⟨10, 20⟩⟩ "p" (.ok ("r", 2, 3))).1 = .ok "r" ∧
    (LLM.chat ⟨[], ⟨10, 20⟩⟩ "p" (.ok ("r", 2, 3))).2.history
      = [{ prompt := "p", response := "r" }] ∧
    (LLM.chat ⟨[], ⟨10, 20⟩⟩ "p" (.ok ("r", 2, 3))).2.providerUsage.input_tokens = 12 ∧
    LLM.chat ⟨[], ⟨10, 20⟩⟩ "q" (.error "rate limited") = (.error "rate limited", ⟨[], ⟨10, 20⟩⟩) := by
  have hOk := (llm_chat_history_usage_atomic ⟨[], ⟨10, 20⟩⟩ "p" (.ok ("r", 2, 3))).1
    "r" 2 3 rfl
  have hErr := (llm_chat_history_usage_atomic ⟨[], ⟨10, 20⟩⟩ "q"
    (.error "rate limited")).2 "rate limited" rfl
  exact ⟨hOk.1, hOk.2.1, hOk.2.2.1, hErr⟩

/-! ## Synthesize._get_draft_by_path  (src/codeflow/compose/job.py 362-392)

The path-identity reconciliation utility: exact dict lookup first, then a
single scan over the keys in insertion order, checking for each key its
string representation and then its resolved form (the `try` around the
resolution never fires here because `res` is total). -/

def getDraftMatchLoop (res : String → String) (target : PKey) :
    List (PKey × String) → Option String
  | [] => none
  | (k, content) :: rest =>
      if k.str = target.str then some content
      else if res k.toPath.str = res target.str then some content
      else getDraftMatchLoop res target rest

def getDraftByPath (res : String → String) (drafts : List (PKey × String))
    (target : PKey) : Option String :=
  match dget drafts target with
  | some content => some content
  | none => getDraftMatchLoop res target drafts

/-- Modelled from the spec (§4.4): the three reconciliation strategies
attempted strictly in order — (a) exact key match, (b) string-representation
match over all keys, (c) canonical-resolved match over all keys — with the
first *strategy* that succeeds determining the result. -/
def getDraftSpecOrder (res : String → String) (drafts : List (PKey × String))
    (target : PKey) : Option String :=
  match dget drafts target with
  | some content => some content
  | none =>
      match drafts.find? (fun p => p.1.str == target.str) with
      | some p => some p.2
      | none => (drafts.find? (fun p => res p.1.toPath.str == res target.str)).map Prod.snd

/-! ### C7 -/

/-- C7 counterexample: the implementation interleaves strategies (b) and
(c) per key, so a resolve-match on an earlier key beats a
string-representation match on a later key; strict strategy order would
return the later key's draft. -/
theorem get_draft_by_path_strategy_order_refuted :
    getDraftByPath (fun s => if s = "x" ∨ s = "b" then "r" else s)
        [(PKey.ppath "x", "A"), (PKey.pstr "b", "B")] (PKey.ppath "b") = some "A" ∧
    getDraftSpecOrder (fun s => if s = "x" ∨ s = "b" then "r" else s)
        [(PKey.ppath "x", "A"), (PKey.pstr "b", "B")] (PKey.ppath "b") = some "B" ∧
    getDraftByPath (fun s => if s = "x" ∨ s = "b" then "r" else s)
        [(PKey.ppath "x", "A"), (PKey.pstr "b", "B")] (PKey.ppath "b")
      ≠ getDraftSpecOrder (fun s => if s = "x" ∨ s = "b" then "r" else s)
        [(PKey.ppath "x", "A"), (PKey.pstr "b", "B")] (PKey.ppath "b") := by
  exact ⟨rfl, rfl, by decide⟩

/-- C7 (amended): the lookup attempts an exact key match first; failing
that it scans the draft keys in insertion order and returns the content of
the first key that matches by string representation *or* by canonical
resolution (the two fallback strategies are interleaved per key, not tried
strictly in order); if no key matches, the lookup yields no draft. -/
theorem get_draft_by_path_characterisation (res : String → String)
    (drafts : List (PKey × String)) (target : PKey) :
    getDraftByPath res drafts target
      = match dget drafts target with
        | some content => some content
        | none =>
            (drafts.find? (fun p =>
              p.1.str == target.str || res p.1.toPath.str == res target.str)).map Prod.snd := by
  unfold getDraftByPath
  cases dget drafts target with
  | some content => rfl
  | none =>
      simp only
      induction drafts with
      | nil => rfl
      | cons hd tl ih =>
          obtain ⟨k, content⟩ := hd
          by_cases h1 : k.str = target.str
          · simp [getDraftMatchLoop, List.find?, h1]
          · by_cases h2 : res k.toPath.str = res target.str
            · simp [getDraftMatchLoop, List.find?, h1, h2]
            · simp only [getDraftMatchLoop, if_neg h1, if_neg h2, List.find?]
              rw [ih]
              have : (k.str == target.str || (res k.toPath.str == res target.str)) = false := by
                simp [h1, h2]
              simp [this]

/-! ## WorkflowState and the phase jobs  (src/loopflow/compose/workflow.py)

`WorkflowState` keeps the prompt fields used by the phases (goal, resolved
output files, the team's member names in dict order) and the accumulated
artifacts.  The `start_time`/`history` observability fields (`log_step`)
are not modelled.  Each phase is a function from state to
`Except PyExn (state × chat-call log)`; the log records every member
`chat` call the phase issued, in order, as (member name, prompt). -/

structure WfState : Type where
  goal : String
  output_files : List PKey
  teamMembers : List String
  clarifications : List (String × String)
  drafts : List (String × List (PKey × String))
  reviews : List (String × List (String × String))
  outputs : List (PKey × String)
deriving DecidableEq

/-- `"\n".join(str(p) for p in state.prompt.output_files)`. -/
def filePathsStr (s : WfState) : String :=
  String.intercalate "\n" (s.output_files.map PKey.str)

/-- Clarify (workflow.py 120-175).  `qTmpl name goal filePaths context` is
`QUESTION_TEMPLATE.format(...)` (applied inside `query_parallel`);
`userChat` is the user-interaction collaborator, the only fallible step
here (`query_parallel` never raises); its exception is wrapped as
"Clarification failed" with stage "clarify". -/
def clarifyExec (qTmpl : String → String → String → String → String)
    (contextStr : String) (chat : String → String → Except String String)
    (userChat : String → Except String String) (s : WfState) :
    Except PyExn (WfState × List (String × String)) :=
  let qp := queryParallel s.teamMembers
    (fun name => qTmpl name s.goal (filePathsStr s) contextStr) chat
  let questionsStr := String.intercalate "\n\n"
    (qp.1.map (fun p => p.1 ++ "\x27s Questions:\n" ++ p.2))
  match userChat questionsStr with
  | .error e =>
      .error (.workflowError "Clarification failed"
        { ErrCtx.empty with error := some e, stage := some "clarify" })
  | .ok answers =>
      .ok ({ s with clarifications :=
              [("questions", questionsStr), ("answers", answers)] }, qp.2)

/-- Draft (workflow.py 177-252).  Initializes `drafts[name] = \x7b\x7d` for every
team member, then, per output file, one `query_parallel` fan-out whose
responses are stored under `[author][file_path]` (the file key is the
original `Path` from `output_files`).  `dTmpl goal filePath clarText` is
the fully formatted `DRAFT_TEMPLATE`; nothing in the body can raise, so
the "Draft generation failed" wrapper is unreachable. -/
def draftExec (dTmpl : String → String → String → String)
    (chat : String → String → Except String String) (s : WfState) :
    Except PyExn (WfState × List (String × String)) :=
  let clarText :=
    if s.clarifications = [] then ""
    else "Questions:\n" ++ (dget s.clarifications "questions").getD ""
      ++ "\n\nAnswers:\n" ++ (dget s.clarifications "answers").getD ""
  let d0 := s.teamMembers.foldl (fun d name => dset d name []) s.drafts
  let r := s.output_files.foldl (fun acc f =>
      let qp := queryParallel s.teamMembers (fun _ => dTmpl s.goal f.str clarText) chat
      (qp.1.foldl (fun d p => dset d p.1 (dset ((dget d p.1).getD []) f p.2)) acc.1,
       acc.2 ++ qp.2)) (d0, [])
  .ok ({ s with drafts := r.1 }, r.2)

/-- Review (workflow.py 254-330).  Initializes `reviews[reviewer] = \x7b\x7d`
for every team member, then one `query_parallel` per draft author over the
author's combined draft block; responses stored under
`[reviewer][author]`.  `rTmpl name filePaths draftBlock` is
`REVIEW_TEMPLATE.format(...)`; nothing in the body can raise, so the
"Review failed" wrapper is unreachable. -/
def reviewExec (rTmpl : String → String → String → String)
    (chat : String → String → Except String String) (s : WfState) :
    Except PyExn (WfState × List (String × String)) :=
  let r0 := s.teamMembers.foldl (fun r name => dset r name []) s.reviews
  let r := s.drafts.foldl (fun acc ad =>
      let allDraftsStr := "Draft by " ++ ad.1 ++ ":\n" ++ String.intercalate "\n\n"
        (ad.2.map (fun fc => "## " ++ fc.1.str ++ ":\n" ++ fc.2))
      let qp := queryParallel s.teamMembers
        (fun name => rTmpl name (filePathsStr s) allDraftsStr) chat
      (qp.1.foldl (fun r p => dset r p.1 (dset ((dget r p.1).getD []) ad.1 p.2)) acc.1,
       acc.2 ++ qp.2)) (r0, [])
  .ok ({ s with reviews := r.1 }, r.2)

/-! ## Synthesize  (src/loopflow/compose/workflow.py 332-465) -/

/-- Synthesizer selection (workflow.py 339-343): prefer the hardcoded
default "maya" when present in the team, else the first member in dict
iteration order; an empty team makes `next(iter(...))` raise. -/
def selectSynthesizerName (members : List String) : Option String :=
  if members.contains "maya" then some "maya" else members.head?

/-- The per-author resolving fallback (workflow.py 387-393): scan the
draft keys in order; a `str` key is first converted with `Path(...)`;
on a resolve match the dict is indexed with the *converted* key, which
raises `KeyError` when the original key was a `str` (modelled as a
`.generic` exception; its exact message is not modelled). -/
def synthResolveLoop (res : String → String) (fp : PKey)
    (full : List (PKey × String)) :
    List (PKey × String) → Except PyExn (Option String)
  | [] => .ok none
  | (k, _) :: rest =>
      if res k.toPath.str = fp.str then
        match dget full k.toPath with
        | some t => .ok (some t)
        | none => .error (.generic "KeyError")
      else synthResolveLoop res fp full rest

/-- The inline three-step draft lookup of loopflow's Synthesize
(workflow.py 379-393), keyed by the already-resolved `file_path` (`fp` is
`Path(file).resolve()`, so `fp.str` is the resolved string form):
(a) `file_path in draft_dict`, (b) `str(file_path) in draft_dict`,
(c) the resolving scan. -/
def synthDraftLookup (res : String → String) (dd : List (PKey × String))
    (fp : PKey) : Except PyExn (Option String) :=
  match dget dd fp with
  | some t => .ok (some t)
  | none =>
      match dget dd (PKey.pstr fp.str) with
      | some t => .ok (some t)
      | none => synthResolveLoop res fp dd dd

/-- The `available_drafts` dict attached to the "No drafts found" error
(workflow.py 417-421): author → `[str(p) for p in drafts.keys()]`. -/
def availableDrafts (drafts : List (String × List (PKey × String))) :
    List (String × List String) :=
  drafts.map (fun ad => (ad.1, ad.2.map (fun fc => fc.1.str)))

/-- `"\n\n".join(f"Review by ...")` over all reviewers for one author
(workflow.py 400-403). -/
def reviewsBlock (reviews : List (String × List (String × String)))
    (author : String) : String :=
  String.intercalate "\n\n" (reviews.map (fun rv =>
    "Review by " ++ rv.1 ++ ":\n" ++ ((dget rv.2 author).getD "No review") ++ "\n"))

/-- Per-file collection of `author_drafts_and_reviews` blocks
(workflow.py 378-406): authors with no matching draft are skipped with a
warning. -/
def collectDraftsAndReviews (res : String → String)
    (reviews : List (String × List (String × String))) (fp : PKey) :
    List (String × List (PKey × String)) → Except PyExn (List String)
  | [] => .ok []
  | (author, dd) :: rest =>
      match synthDraftLookup res dd fp with
      | .error e => .error e
      | .ok none => collectDraftsAndReviews res reviews fp rest
      | .ok (some draftText) =>
          match collectDraftsAndReviews res reviews fp rest with
          | .error e => .error e
          | .ok blocks =>
              .ok (("Draft by " ++ author ++ ":\n" ++ draftText ++ "\n"
                    ++ "\n\nReviews:\n" ++ reviewsBlock reviews author ++ "\n") :: blocks)

/-- The `except` wrapper of `Synthesize.execute` (workflow.py 459-465):
every exception becomes "Synthesis failed" with `str(e)`, the stage tag,
and `str(file_path)` when a file was in scope — the inner context
(including `available_drafts`) is not retained. -/
def synthWrap (e : PyExn) (fileLocal : Option String) : PyExn :=
  .workflowError "Synthesis failed"
    { ErrCtx.empty with
        error := some e.str
        stage := some "synthesize"
        file := fileLocal }

/-- The per-file loop of `Synthesize.execute` (workflow.py 360-445),
before the `except` wrapper: the exception value is paired with the
`file_path` local in scope at raise time.  `sTmpl filePath block` is
`SYNTHESIS_TEMPLATE.format(...)`; the synthesis call goes to
`synthName` and the result is stored at the resolved path key. -/
def synthFilesInner (res : String → String) (sTmpl : String → String → String)
    (chat : String → String → Except String String) (synthName : String)
    (drafts : List (String × List (PKey × String)))
    (reviews : List (String × List (String × String))) :
    List PKey → List (PKey × String) → List (String × String) →
    Except (PyExn × Option String) (List (PKey × String) × List (String × String))
  | [], outs, log => .ok (outs, log)
  | f :: rest, outs, log =>
      let fp := res f.toPath.str
      match collectDraftsAndReviews res reviews (PKey.ppath fp) drafts with
      | .error e => .error (e, some fp)
      | .ok blocks =>
          if blocks.isEmpty then
            .error (.workflowError ("No drafts found for " ++ fp)
              { ErrCtx.empty with
                  file := some fp
                  available_drafts := some (availableDrafts drafts) }, some fp)
          else
            let prompt := sTmpl fp (String.intercalate "\n\n" blocks)
            match chat synthName prompt with
            | .error e => .error (.generic e, some fp)
            | .ok content =>
                synthFilesInner res sTmpl chat synthName drafts reviews rest
                  (dset outs (PKey.ppath fp) content) (log ++ [(synthName, prompt)])

/-- `Synthesize.execute` (workflow.py 332-465). -/
def synthesizeExec (res : String → String) (sTmpl : String → String → String)
    (chat : String → String → Except String String) (s : WfState) :
    Except PyExn (WfState × List (String × String)) :=
  match selectSynthesizerName s.teamMembers with
  | none => .error (synthWrap (.generic "") none)
  | some synthName =>
      match synthFilesInner res sTmpl chat synthName s.drafts s.reviews
          s.output_files s.outputs [] with
      | .error (e, fileLocal) => .error (synthWrap e fileLocal)
      | .ok (outs, log) => .ok ({ s with outputs := outs }, log)

/-! ## Sequential composer  (workflow.py 471-535) -/

/-- `Sequential.execute`: run each job in order, piping the state; the
first raised phase error propagates unchanged.  The logs of the phases
are concatenated. -/
def sequentialExec :
    List (WfState → Except PyExn (WfState × List (String × String))) → WfState →
    Except PyExn (WfState × List (String × String))
  | [], s => .ok (s, [])
  | job :: rest, s =>
      match job s with
      | .error e => .error e
      | .ok (s', log) =>
          match sequentialExec rest s' with
          | .error e => .error e
          | .ok (s'', log') => .ok (s'', log ++ log')

/-- `default_pipeline` (workflow.py 515-535): Clarify, Draft, Review,
Synthesize in order. -/
def defaultPipeline (qTmpl : String → String → String → String → String)
    (dTmpl rTmpl : String → String → String → String)
    (sTmpl : String → String → String) (contextStr : String)
    (res : String → String) (chat : String → String → Except String String)
    (userChat : String → Except String String) :
    List (WfState → Except PyExn (WfState × List (String × String))) :=
  [clarifyExec qTmpl contextStr chat userChat,
   draftExec dTmpl chat,
   reviewExec rTmpl chat,
   synthesizeExec res sTmpl chat]

/-! ## Session  (src/loopflow/session.py, src/codeflow/io/session.py)

The filesystem is a map from full path strings to file contents; every
write/unlink/move is also recorded in an event trace so that the order of
operations (in particular, *where* the staging writes land) is
observable.  `write_text` failures are injected through a `writeFails`
oracle on the written path. -/

abbrev FS := List (String × String)

inductive FsEvent : Type
  | fwrite (path : String)
  | funlink (path : String)
  | fmove (src dst : String)
deriving DecidableEq

/-- Whether a path string is absolute (leading slash). -/
def isAbsolute (p : String) : Bool :=
  match p.data with
  | '/' :: _ => true
  | _ => false

/-- pathlib's `Path(tempDir) / p`: when the right operand is an absolute
path, the left side is discarded entirely. -/
def pyPathJoin (tempDir : String) (p : String) : String :=
  if isAbsolute p then p else tempDir ++ "/" ++ p

/-- The staging loop of `Session._write_outputs` (session.py 221-229):
`temp_path = self._temp_dir / path; temp_path.write_text(content);
temp_files[path] = temp_path`.  Returns (failure message or none,
filesystem, `temp_files` as (final, temp) string pairs, event trace)
at the point where the loop stopped. -/
def stageLoop (writeFails : String → Bool) (tempDir : String) :
    List (PKey × String) → FS → List (String × String) → List FsEvent →
    Option String × FS × List (String × String) × List FsEvent
  | [], fs, temps, evs => (none, fs, temps, evs)
  | (p, content) :: rest, fs, temps, evs =>
      let tempPath := pyPathJoin tempDir p.str
      if writeFails tempPath then
        (some ("write failed: " ++ tempPath), fs, temps, evs)
      else
        stageLoop writeFails tempDir rest (dset fs tempPath content)
          (temps ++ [(p.str, tempPath)]) (evs ++ [FsEvent.fwrite tempPath])

/-- The move loop (session.py 231-235): `shutil.move(str(temp_path),
str(final_path))` for every staged pair; a missing source raises. -/
def moveLoop : List (String × String) → FS → List FsEvent →
    Option String × FS × List FsEvent
  | [], fs, evs => (none, fs, evs)
  | (finalPath, tempPath) :: rest, fs, evs =>
      match dget fs tempPath with
      | none => (some ("move failed: " ++ tempPath), fs, evs)
      | some content =>
          moveLoop rest (dset (derase fs tempPath) finalPath content)
            (evs ++ [FsEvent.fmove tempPath finalPath])

/-- The `except` cleanup (session.py 239-243): unlink every recorded temp
file that still exists. -/
def cleanupTemps : List (String × String) → FS → List FsEvent → FS × List FsEvent
  | [], fs, evs => (fs, evs)
  | (_, tempPath) :: rest, fs, evs =>
      match dget fs tempPath with
      | none => cleanupTemps rest fs evs
      | some _ => cleanupTemps rest (derase fs tempPath) (evs ++ [FsEvent.funlink tempPath])

/-- `Session._write_outputs` (src/loopflow/session.py 202-248): stage all
files, then move all files; on any failure clean up the recorded temp
files and raise `SessionError("Failed to write outputs: ...",
\x7b"attempted_files": list(outputs.keys())\x7d)`.  Returns the outcome
together with the resulting filesystem and the full event trace. -/
def writeOutputsSession (writeFails : String → Bool) (tempDir : String)
    (outputs : List (PKey × String)) (fs : FS) :
    Except PyExn Unit × FS × List FsEvent :=
  match stageLoop writeFails tempDir outputs fs [] [] with
  | (some emsg, fs1, temps, evs) =>
      let c := cleanupTemps temps fs1 evs
      (.error (.sessionError ("Failed to write outputs: " ++ emsg)
          { SessCtx.empty with attempted_files := some (outputs.map (fun p => p.1.str)) }),
       c.1, c.2)
  | (none, fs1, temps, evs) =>
      match moveLoop temps fs1 evs with
      | (some emsg, fs2, evs2) =>
          let c := cleanupTemps temps fs2 evs2
          (.error (.sessionError ("Failed to write outputs: " ++ emsg)
              { SessCtx.empty with attempted_files := some (outputs.map (fun p => p.1.str)) }),
           c.1, c.2)
      | (none, fs2, evs2) => (.ok (), fs2, evs2)

/-- Python `repr` of a list of strings, as interpolated by f-strings. -/
def pyListRepr (xs : List String) : String :=
  "[" ++ String.intercalate ", " (xs.map (fun s => "\x27" ++ s ++ "\x27")) ++ "]"

/-- loopflow `Session._setup_team` (src/loopflow/session.py 169-200):
collect the requested members present in `available_llms` (in request
order), and raise a `SessionError` naming missing, requested and
available members in the *message* — its context dict is empty. -/
def setupTeamLF (availableNames : List String) (team : List String) :
    Except PyExn (List String) :=
  let missing := team.filter (fun n => !availableNames.contains n)
  let llms := team.filter (fun n => availableNames.contains n)
  if missing = [] then .ok llms
  else .error (.sessionError
    ("Unknown team members: " ++ String.intercalate ", " missing
      ++ " requested: " ++ pyListRepr team ++ ", available: " ++ pyListRepr availableNames)
    SessCtx.empty)

/-- codeflow `Session.setup_team` (src/codeflow/io/session.py 329-361):
same member resolution, but the `SessionError` message is exactly
`"Unknown team members: " + ", ".join(missing)` and the context carries
the full requested and available lists. -/
def setupTeamCF (availableNames : List String) (team_names : List String) :
    Except PyExn (List String) :=
  let missing := team_names.filter (fun n => !availableNames.contains n)
  let llms := team_names.filter (fun n => availableNames.contains n)
  if missing = [] then .ok llms
  else .error (.sessionError
    ("Unknown team members: " ++ String.intercalate ", " missing)
    { SessCtx.empty with
        requested := some team_names
        available := some availableNames })

/-- The success record built by `Session._create_result`
(session.py 251-275). -/
structure RunResult : Type where
  status : String
  outputs : List (PKey × String)
  execution_time : Int
  clarification_count : Nat
  draft_count : Nat
  review_count : Nat
  file_count : Nat
  usage : UsageStats
deriving DecidableEq

/-- `Session.run` (src/loopflow/session.py 96-167).  The composed
pipeline running under `asyncio.timeout` is a behaviour parameter: given
the resolved team it either returns the final state, or raises — with
`PyExn.timeoutError` standing for the timeout cancelling the in-flight
pipeline.  Wall-clock readings at start and end are `t0`, `t1`.  Every
exception of the body is normalized in the `except` clause: the message
becomes "TimeoutError" for a timeout, else `str(e)`, and a `SessionError`
is raised carrying `\x7bstatus="error", error, execution_time, usage\x7d`. -/
def sessionRun (availableNames : List String) (team : List String)
    (pipelineOutcome : List String → Except PyExn WfState)
    (usage : UsageStats) (writeFails : String → Bool) (tempDir : String)
    (fs : FS) (t0 t1 : Int) :
    Except PyExn RunResult × FS :=
  let attempt : Except PyExn RunResult × FS :=
    match setupTeamLF availableNames team with
    | .error e => (.error e, fs)
    | .ok llmsTeam =>
        match pipelineOutcome llmsTeam with
        | .error e => (.error e, fs)
        | .ok finalState =>
            match writeOutputsSession writeFails tempDir finalState.outputs fs with
            | (.error e, fs2, _) => (.error e, fs2)
            | (.ok _, fs2, _) =>
                (.ok { status := "success"
                       outputs := finalState.outputs
                       execution_time := t1 - t0
                       clarification_count := finalState.clarifications.length
                       draft_count := finalState.drafts.length
                       review_count := finalState.reviews.length
                       file_count := finalState.outputs.length
                       usage := usage }, fs2)
  match attempt with
  | (.ok r, fs2) => (.ok r, fs2)
  | (.error e, fs2) =>
      let errorMessage := if e = PyExn.timeoutError then "TimeoutError" else e.str
      (.error (.sessionError errorMessage
        { SessCtx.empty with
            status := some "error"
            error := some errorMessage
            execution_time := some (t1 - t0)
            usage := some usage }), fs2)

/-! ### C6 -/

/-- C6: a requested team list with a name absent from the available
registry makes codeflow's `setup_team` raise "Unknown team members:
{missing}" with context carrying the full requested and available lists;
and with such a team list, loopflow's `Session.run` result does not
depend on the pipeline at all (the pipeline never executes, so no phase
runs and no model call is made). -/
theorem setup_team_unknown_members_fails_fast
    (availableNames team_names : List String)
    (hmiss : team_names.filter (fun n => !availableNames.contains n) ≠ []) :
    setupTeamCF availableNames team_names = .error (.sessionError
      ("Unknown team members: " ++ String.intercalate ", "
        (team_names.filter (fun n => !availableNames.contains n)))
      { SessCtx.empty with
          requested := some team_names
          available := some availableNames }) ∧
    (∀ (po1 po2 : List String → Except PyExn WfState) usage writeFails tempDir fs t0 t1,
      sessionRun availableNames team_names po1 usage writeFails tempDir fs t0 t1
        = sessionRun availableNames team_names po2 usage writeFails tempDir fs t0 t1) := by
  constructor
  · simp only [setupTeamCF]
    rw [if_neg hmiss]
  · intro po1 po2 usage wf td fs t0 t1
    simp only [sessionRun, setupTeamLF]
    rw [if_neg hmiss]

theorem setup_team_unknown_members_fails_fast_witness :
    ((["alice", "carol"].filter (fun n => !(["alice", "bob"].contains n))) ≠ ([] : List String)) ∧
    setupTeamCF ["alice", "bob"] ["alice", "carol"] = .error (.sessionError
      "Unknown team members: carol"
      { SessCtx.empty with
          requested := some ["alice", "carol"]
          available := some ["alice", "bob"] }) := by
  have h := setup_team_unknown_members_fails_fast ["alice", "bob"] ["alice", "carol"]
    (by decide)
  exact ⟨by decide, h.1⟩

/-! ### C5 -/

/-- C5 counterexample: a run whose pipeline times out raises a
`SessionError` — the *same* exception class raised for a generic pipeline
exception, distinguished only by its message — so the raised error is not
of a distinguished timeout kind. -/
theorem session_run_timeout_not_distinguished_kind :
    (sessionRun ["alice"] ["alice"] (fun _ => .error .timeoutError) ⟨1, 2⟩
        (fun _ => false) "/tmp/t" [] 0 5).1
      = .error (.sessionError "TimeoutError"
          { SessCtx.empty with
              status := some "error"
              error := some "TimeoutError"
              execution_time := some 5
              usage := some ⟨1, 2⟩ }) ∧
    (sessionRun ["alice"] ["alice"] (fun _ => .error (.generic "boom")) ⟨1, 2⟩
        (fun _ => false) "/tmp/t" [] 0 5).1
      = .error (.sessionError "boom"
          { SessCtx.empty with
              status := some "error"
              error := some "boom"
              execution_time := some 5
              usage := some ⟨1, 2⟩ }) ∧
    PyExn.kindName (.sessionError "TimeoutError" SessCtx.empty)
      = PyExn.kindName (.sessionError "boom" SessCtx.empty) ∧
    PyExn.kindName (.sessionError "TimeoutError" SessCtx.empty) ≠ "TimeoutError" := by
  exact ⟨rfl, rfl, rfl, by decide⟩

/-- C5 (amended): when the wall-clock timeout elapses mid-pipeline,
`Session.run` raises a `SessionError` — the same exception class as for
generic failures, distinguished by its message and context `error` field
both being exactly "TimeoutError" — whose context carries
`status="error"` and an `execution_time` that is at least 0. -/
theorem session_run_timeout_contract (availableNames team : List String)
    (pipelineOutcome : List String → Except PyExn WfState)
    (usage : UsageStats) (writeFails : String → Bool) (tempDir : String)
    (fs : FS) (t0 t1 : Int)
    (hteam : team.filter (fun n => !availableNames.contains n) = [])
    (htime : t0 ≤ t1)
    (hto : pipelineOutcome (team.filter (fun n => availableNames.contains n))
            = .error .timeoutError) :
    (sessionRun availableNames team pipelineOutcome usage writeFails tempDir fs t0 t1).1
      = .error (.sessionError "TimeoutError"
          { SessCtx.empty with
              status := some "error"
              error := some "TimeoutError"
              execution_time := some (t1 - t0)
              usage := some usage }) ∧
    (0 : Int) ≤ t1 - t0 ∧
    (∀ e, (sessionRun availableNames team pipelineOutcome usage writeFails
        tempDir fs t0 t1).1 = .error e → PyExn.kindName e = "SessionError") := by
  have h1 : (sessionRun availableNames team pipelineOutcome usage writeFails
      tempDir fs t0 t1).1
      = .error (.sessionError "TimeoutError"
          { SessCtx.empty with
              status := some "error"
              error := some "TimeoutError"
              execution_time := some (t1 - t0)
              usage := some usage }) := by
    simp only [sessionRun, setupTeamLF]
    rw [if_pos hteam]
    simp only [hto, if_true]
  refine ⟨h1, by omega, ?_⟩
  intro e he
  rw [h1] at he
  simp only [Except.error.injEq] at he
  subst he
  rfl

theorem session_run_timeout_contract_witness :
    ((["alice"].filter (fun n => !(["alice"].contains n))) = ([] : List String)) ∧
    ((0 : Int) ≤ 5) ∧
    (sessionRun ["alice"] ["alice"] (fun _ => .error .timeoutError) ⟨1, 2⟩
        (fun _ => false) "/tmp/t" [] 0 5).1
      = .error (.sessionError "TimeoutError"
          { SessCtx.empty with
              status := some "error"
              error := some "TimeoutError"
              execution_time := some 5
              usage := some ⟨1, 2⟩ }) := by
  have h := session_run_timeout_contract ["alice"] ["alice"]
    (fun _ => .error .timeoutError) ⟨1, 2⟩ (fun _ => false) "/tmp/t" [] 0 5
    (by decide) (by decide) rfl
  exact ⟨by decide, by decide, h.1⟩

/-! ### C2 -/

/-- C2: evaluation at the failing input.  Output paths are absolute (as
produced by `Prompt`/`Synthesize`), so `self._temp_dir / path` *is* the
final destination: the staging write for `/a.txt` lands directly at
`/a.txt` (overwriting its pre-existing content), and after the injected
failure of the second staged write the cleanup unlinks it, destroying the
pre-existing file — contradicting "all files are first written to a
temporary staging area".  The error message and attempted-paths context
are as claimed. -/
theorem write_outputs_stages_at_final_destination :
    pyPathJoin "/tmp/stage" "/a.txt" = "/a.txt" ∧
    writeOutputsSession (fun p => p == "/b.txt") "/tmp/stage"
        [(PKey.ppath "/a.txt", "new"), (PKey.ppath "/b.txt", "B")]
        [("/a.txt", "old")]
      = (.error (.sessionError "Failed to write outputs: write failed: /b.txt"
            { SessCtx.empty with attempted_files := some ["/a.txt", "/b.txt"] }),
         [],
         [FsEvent.fwrite "/a.txt", FsEvent.funlink "/a.txt"]) ∧
    dget [("/a.txt", "old")] "/a.txt" = some "old" := by
  exact ⟨rfl, rfl, rfl⟩

/-! ### C1 -/

theorem collect_ok_nil_of_no_match (res : String → String)
    (reviews : List (String × List (String × String))) (fp : PKey) :
    ∀ drafts : List (String × List (PKey × String)),
      (∀ ad ∈ drafts, synthDraftLookup res ad.2 fp = .ok none) →
      collectDraftsAndReviews res reviews fp drafts = .ok [] := by
  intro drafts
  induction drafts with
  | nil => intro _; rfl
  | cons ad rest ih =>
      intro h
      obtain ⟨author, dd⟩ := ad
      have h1 := h (author, dd) (List.mem_cons_self _ _)
      simp only at h1
      simp only [collectDraftsAndReviews, h1]
      exact ih (fun x hx => h x (List.mem_cons_of_mem _ hx))

theorem synthFilesInner_error_of_no_match (res : String → String)
    (sTmpl : String → String → String)
    (chat : String → String → Except String String) (synthName : String)
    (drafts : List (String × List (PKey × String)))
    (reviews : List (String × List (String × String))) :
    ∀ (files : List PKey) (outs : List (PKey × String)) (log : List (String × String)),
      (∃ f ∈ files, ∀ ad ∈ drafts,
        synthDraftLookup res ad.2 (PKey.ppath (res f.toPath.str)) = .ok none) →
      ∃ e fp, synthFilesInner res sTmpl chat synthName drafts reviews files outs log
          = .error (e, some fp) ∧ ∃ g ∈ files, fp = res g.toPath.str := by
  intro files
  induction files with
  | nil =>
      intro outs log h
      obtain ⟨f, hf, _⟩ := h
      cases hf
  | cons f rest ih =>
      intro outs log h
      cases hcol : collectDraftsAndReviews res reviews (PKey.ppath (res f.toPath.str))
          drafts with
      | error e =>
          refine ⟨e, res f.toPath.str, ?_, f, List.mem_cons_self _ _, rfl⟩
          simp only [synthFilesInner, hcol]
      | ok blocks =>
          by_cases hemp : blocks.isEmpty = true
          · refine ⟨.workflowError ("No drafts found for " ++ res f.toPath.str)
                { ErrCtx.empty with
                    file := some (res f.toPath.str)
                    available_drafts := some (availableDrafts drafts) },
              res f.toPath.str, ?_, f, List.mem_cons_self _ _, rfl⟩
            simp only [synthFilesInner, hcol, hemp, if_true]
          · obtain ⟨f0, hf0, hnm⟩ := h
            have hf0rest : f0 ∈ rest := by
              rcases List.mem_cons.mp hf0 with h0 | h0
              · exfalso
                subst h0
                have hnil := collect_ok_nil_of_no_match res reviews _ drafts hnm
                rw [hcol] at hnil
                simp only [Except.ok.injEq] at hnil
                subst hnil
                exact hemp rfl
              · exact h0
            cases hchat : chat synthName (sTmpl (res f.toPath.str)
                (String.intercalate "\n\n" blocks)) with
            | error e =>
                refine ⟨.generic e, res f.toPath.str, ?_, f, List.mem_cons_self _ _, rfl⟩
                simp only [synthFilesInner, hcol, hemp, hchat]
                simp
            | ok content =>
                obtain ⟨e, fp, hrun, g, hg, hfp⟩ := ih
                  (dset outs (PKey.ppath (res f.toPath.str)) content)
                  (log ++ [(synthName, sTmpl (res f.toPath.str)
                    (String.intercalate "\n\n" blocks))])
                  ⟨f0, hf0rest, hnm⟩
                refine ⟨e, fp, ?_, g, List.mem_cons_of_mem _ hg, hfp⟩
                simp only [synthFilesInner, hcol, hemp, hchat]
                simpa using hrun

/-- C1 (amended): for a nonempty team, when some requested output file has
no matching draft from any author under the three-strategy lookup, the
Synthesize phase raises (never returns success, so `outputs` gains no
entry and the pipeline cannot report success) a `WorkflowError` with
message "Synthesis failed" whose context is tagged `stage="synthesize"`
and carries the path of the file it failed on — but whose
`available_drafts` entry is `none`: the per-author available-draft sets
are attached only to the inner error, which the `except` wrapper replaces,
retaining only its message string in the `error` field. -/
theorem synthesize_missing_draft_raises (res : String → String)
    (sTmpl : String → String → String)
    (chat : String → String → Except String String) (s : WfState)
    (hne : s.teamMembers ≠ [])
    (hf : ∃ f ∈ s.output_files, ∀ ad ∈ s.drafts,
        synthDraftLookup res ad.2 (PKey.ppath (res f.toPath.str)) = .ok none) :
    ∃ e fp,
      synthesizeExec res sTmpl chat s = .error (.workflowError "Synthesis failed"
        { error := some (PyExn.str e)
          stage := some "synthesize"
          file := some fp
          available_drafts := none
          author := none
          reviewer := none }) ∧
      ∃ g ∈ s.output_files, fp = res g.toPath.str := by
  have hsel : ∃ nm, selectSynthesizerName s.teamMembers = some nm := by
    unfold selectSynthesizerName
    by_cases hc : s.teamMembers.contains "maya" = true
    · exact ⟨"maya", by rw [if_pos hc]⟩
    · cases hms : s.teamMembers with
      | nil => exact absurd hms hne
      | cons a b =>
          refine ⟨a, ?_⟩
          rw [hms] at hc
          rw [if_neg hc]
          rfl
  obtain ⟨nm, hsel⟩ := hsel
  obtain ⟨e, fp, hrun, g, hg, hfp⟩ := synthFilesInner_error_of_no_match res sTmpl chat
    nm s.drafts s.reviews s.output_files s.outputs [] hf
  refine ⟨e, fp, ?_, g, hg, hfp⟩
  unfold synthesizeExec
  rw [hsel]
  simp only [hrun]
  rfl

theorem synthesize_missing_draft_raises_witness :
    ((["alice"] : List String) ≠ []) ∧
    (∃ e fp,
      synthesizeExec (fun x => x) (fun a b => a ++ "\n" ++ b) (fun _ _ => .ok "out")
        { goal := "g", output_files := [PKey.ppath "/a.py"], teamMembers := ["alice"]
          clarifications := [], drafts := [("alice", [(PKey.ppath "/b.py", "d")])]
          reviews := [("alice", [])], outputs := [] }
        = .error (.workflowError "Synthesis failed"
          { error := some (PyExn.str e)
            stage := some "synthesize"
            file := some fp
            available_drafts := none
            author := none
            reviewer := none }) ∧
      ∃ g ∈ [PKey.ppath "/a.py"], fp = g.toPath.str) := by
  refine ⟨by decide, ?_⟩
  exact synthesize_missing_draft_raises (fun x => x) (fun a b => a ++ "\n" ++ b)
    (fun _ _ => .ok "out")
    { goal := "g", output_files := [PKey.ppath "/a.py"], teamMembers := ["alice"]
      clarifications := [], drafts := [("alice", [(PKey.ppath "/b.py", "d")])]
      reviews := [("alice", [])], outputs := [] }
    (by decide)
    ⟨PKey.ppath "/a.py", by decide, by
      intro ad had
      rw [List.mem_singleton] at had
      subst had
      rfl⟩

/-- C1 counterexample: the error that propagates out of the Synthesize
phase does not carry the set of available draft paths per author — its
`available_drafts` context entry is `none`; that set (here
`[("alice", ["/b.py"])]`) was attached only to the inner, wrapped-away
error. -/
theorem synthesize_wrapped_error_drops_available_drafts :
    synthesizeExec (fun x => x) (fun a b => a ++ "\n" ++ b) (fun _ _ => .ok "out")
        { goal := "g", output_files := [PKey.ppath "/a.py"], teamMembers := ["alice"]
          clarifications := [], drafts := [("alice", [(PKey.ppath "/b.py", "d")])]
          reviews := [("alice", [])], outputs := [] }
      = .error (.workflowError "Synthesis failed"
          { error := some "No drafts found for /a.py"
            stage := some "synthesize"
            file := some "/a.py"
            available_drafts := none
            author := none
            reviewer := none }) ∧
    availableDrafts [("alice", [(PKey.ppath "/b.py", "d")])] = [("alice", ["/b.py"])] := by
  exact ⟨rfl, rfl⟩

/-! ### C8 -/

theorem synthFilesInner_log_names (res : String → String)
    (sTmpl : String → String → String)
    (chat : String → String → Except String String) (synthName : String)
    (drafts : List (String × List (PKey × String)))
    (reviews : List (String × List (String × String))) :
    ∀ (files : List PKey) (outs : List (PKey × String)) (log : List (String × String))
      (outs' : List (PKey × String)) (log' : List (String × String)),
      synthFilesInner res sTmpl chat synthName drafts reviews files outs log
        = .ok (outs', log') →
      ∀ c ∈ log', c ∈ log ∨ c.1 = synthName := by
  intro files
  induction files with
  | nil =>
      intro outs log outs' log' h c hc
      simp only [synthFilesInner, Except.ok.injEq, Prod.mk.injEq] at h
      rw [← h.2] at hc
      exact Or.inl hc
  | cons f rest ih =>
      intro outs log outs' log' h c hc
      cases hcol : collectDraftsAndReviews res reviews (PKey.ppath (res f.toPath.str))
          drafts with
      | error e =>
          simp only [synthFilesInner, hcol] at h
          exact Except.noConfusion h
      | ok blocks =>
          by_cases hemp : blocks.isEmpty = true
          · simp only [synthFilesInner, hcol, hemp, if_true] at h
            exact Except.noConfusion h
          · cases hchat : chat synthName (sTmpl (res f.toPath.str)
                (String.intercalate "\n\n" blocks)) with
            | error e =>
                simp only [synthFilesInner, hcol, hemp, hchat] at h
                simp at h
            | ok content =>
                simp only [synthFilesInner, hcol, hemp, hchat] at h
                have hstep := ih _ _ _ _ (by simpa using h) c hc
                rcases hstep with hmem | hname
                · rcases List.mem_append.mp hmem with hl | hr
                  · exact Or.inl hl
                  · rw [List.mem_singleton] at hr
                    subst hr
                    exact Or.inr rfl
                · exact Or.inr hname

/-- C8: Synthesize deterministically selects "maya" (the hardcoded
default) when it is present in the team, else the first team member in
iteration order; and on a successful run every per-file synthesis `chat`
call is issued to the selected synthesizer. -/
theorem synthesize_selects_and_uses_synthesizer (res : String → String)
    (sTmpl : String → String → String)
    (chat : String → String → Except String String) (s : WfState) :
    (s.teamMembers.contains "maya" = true →
      selectSynthesizerName s.teamMembers = some "maya") ∧
    (s.teamMembers.contains "maya" = false →
      selectSynthesizerName s.teamMembers = s.teamMembers.head?) ∧
    (∀ s' log, synthesizeExec res sTmpl chat s = .ok (s', log) →
      ∀ c ∈ log, selectSynthesizerName s.teamMembers = some c.1) := by
  refine ⟨?_, ?_, ?_⟩
  · intro hc
    unfold selectSynthesizerName
    rw [if_pos hc]
  · intro hc
    unfold selectSynthesizerName
    rw [if_neg (fun h => by rw [hc] at h; exact Bool.noConfusion h)]
  · intro s' log hrun c hc
    cases hsel : selectSynthesizerName s.teamMembers with
    | none =>
        simp only [synthesizeExec, hsel] at hrun
        exact Except.noConfusion hrun
    | some nm =>
        cases hinner : synthFilesInner res sTmpl chat nm s.drafts s.reviews
            s.output_files s.outputs [] with
        | error p =>
            obtain ⟨e0, fl0⟩ := p
            simp only [synthesizeExec, hsel, hinner] at hrun
            exact Except.noConfusion hrun
        | ok p =>
            obtain ⟨outs0, log0⟩ := p
            simp only [synthesizeExec, hsel, hinner, Except.ok.injEq,
              Prod.mk.injEq] at hrun
            have hlog := hrun.2
            subst hlog
            have := synthFilesInner_log_names res sTmpl chat nm s.drafts s.reviews
              s.output_files s.outputs [] outs0 log0 hinner c hc
            rcases this with hmem | hname
            · cases hmem
            · rw [hname]

theorem synthesize_selects_and_uses_synthesizer_witness :
    ((["maya"] : List String).contains "maya" = true) ∧
    selectSynthesizerName ["maya"] = some "maya" ∧
    ((["bob", "carol"] : List String).contains "maya" = false) ∧
    selectSynthesizerName ["bob", "carol"] = some "bob" ∧
    selectSynthesizerName ["maya"] = some ("maya", "P").1 := by
  refine ⟨by decide, ?_, by decide, ?_, ?_⟩
  · exact (synthesize_selects_and_uses_synthesizer (fun x => x) (fun _ _ => "P")
      (fun _ _ => .ok "out")
      { goal := "g", output_files := [PKey.ppath "/a"], teamMembers := ["maya"]
        clarifications := [], drafts := [("maya", [(PKey.ppath "/a", "d")])]
        reviews := [], outputs := [] }).1 (by decide)
  · exact (synthesize_selects_and_uses_synthesizer (fun x => x) (fun _ _ => "P")
      (fun _ _ => .ok "out")
      { goal := "g", output_files := [], teamMembers := ["bob", "carol"]
        clarifications := [], drafts := [], reviews := [], outputs := [] }).2.1
      (by decide)
  · exact (synthesize_selects_and_uses_synthesizer (fun x => x) (fun _ _ => "P")
      (fun _ _ => .ok "out")
      { goal := "g", output_files := [PKey.ppath "/a"], teamMembers := ["maya"]
        clarifications := [], drafts := [("maya", [(PKey.ppath "/a", "d")])]
        reviews := [], outputs := [] }).2.2
      { goal := "g", output_files := [PKey.ppath "/a"], teamMembers := ["maya"]
        clarifications := [], drafts := [("maya", [(PKey.ppath "/a", "d")])]
        reviews := [], outputs := [(PKey.ppath "/a", "out")] }
      [("maya", "P")] rfl ("maya", "P") (List.mem_singleton.mpr rfl)

/-! ### C9 -/

theorem dkeys_foldl_dset_init {α : Type} (f : String → α) :
    ∀ (tl : List String) (acc : List (String × α)),
      (∀ n ∈ tl, n ∉ dkeys acc) → tl.Nodup →
      dkeys (tl.foldl (fun d n => dset d n (f n)) acc) = dkeys acc ++ tl := by
  intro tl
  induction tl with
  | nil => intro acc _ _; simp
  | cons hd tl ih =>
      intro acc h hnd
      simp only [List.foldl_cons]
      have h1 : hd ∉ dkeys acc := h hd (List.mem_cons_self hd tl)
      rw [ih (dset acc hd (f hd))
        (fun n hn => by
          rw [dkeys_dset_not_mem _ _ _ h1]
          simp only [List.mem_append, List.mem_singleton]
          push_neg
          refine ⟨h n (List.mem_cons_of_mem _ hn), ?_⟩
          intro hEq
          exact (List.nodup_cons.mp hnd).1 (hEq ▸ hn))
        (List.nodup_cons.mp hnd).2]
      rw [dkeys_dset_not_mem _ _ _ h1]
      simp

theorem dkeys_foldl_dset_preserve {α β : Type}
    (F : List (String × α) → String × β → α) :
    ∀ (resp : List (String × β)) (d : List (String × α)),
      (∀ p ∈ resp, p.1 ∈ dkeys d) →
      dkeys (resp.foldl (fun d p => dset d p.1 (F d p)) d) = dkeys d := by
  intro resp
  induction resp with
  | nil => intro d _; rfl
  | cons p rest ih =>
      intro d h
      simp only [List.foldl_cons]
      have h1 : p.1 ∈ dkeys d := h p (List.mem_cons_self _ _)
      rw [ih _ (fun q hq => by
        rw [dkeys_dset_mem _ _ _ h1]
        exact h q (List.mem_cons_of_mem _ hq))]
      exact dkeys_dset_mem _ _ _ h1

theorem foldl_preserve_keys {γ α : Type} (members : List String)
    (step : List (String × α) × γ → PKey → List (String × α) × γ)
    (hstep : ∀ acc f, dkeys acc.1 = members → dkeys (step acc f).1 = members) :
    ∀ (files : List PKey) (acc : List (String × α) × γ), dkeys acc.1 = members →
      dkeys (files.foldl step acc).1 = members := by
  intro files
  induction files with
  | nil => intro acc h; exact h
  | cons f rest ih => intro acc h; exact ih _ (hstep acc f h)

theorem clarifyExec_fields (qTmpl : String → String → String → String → String)
    (contextStr : String) (chat : String → String → Except String String)
    (userChat : String → Except String String) (s : WfState) :
    ∀ s' log, clarifyExec qTmpl contextStr chat userChat s = .ok (s', log) →
      s'.drafts = s.drafts ∧ s'.outputs = s.outputs ∧
      s'.output_files = s.output_files ∧ s'.teamMembers = s.teamMembers ∧
      s'.goal = s.goal ∧ s'.reviews = s.reviews := by
  intro s' log h
  simp only [clarifyExec] at h
  split at h
  · exact Except.noConfusion h
  · simp only [Except.ok.injEq, Prod.mk.injEq] at h
    obtain ⟨hs, _⟩ := h
    subst hs
    exact ⟨rfl, rfl, rfl, rfl, rfl, rfl⟩

theorem draftExec_keys (dTmpl : String → String → String → String)
    (chat : String → String → Except String String) (s : WfState)
    (hnd : s.teamMembers.Nodup) (hd0 : s.drafts = []) :
    ∀ s' log, draftExec dTmpl chat s = .ok (s', log) →
      dkeys s'.drafts = s.teamMembers ∧ s'.outputs = s.outputs ∧
      s'.output_files = s.output_files ∧ s'.teamMembers = s.teamMembers ∧
      s'.reviews = s.reviews := by
  intro s' log h
  simp only [draftExec, Except.ok.injEq, Prod.mk.injEq] at h
  obtain ⟨hs, _⟩ := h
  subst hs
  refine ⟨?_, rfl, rfl, rfl, rfl⟩
  have hinit : dkeys (s.teamMembers.foldl (fun d name => dset d name
      ([] : List (PKey × String))) s.drafts) = s.teamMembers := by
    rw [hd0]
    rw [dkeys_foldl_dset_init (fun _ => ([] : List (PKey × String))) s.teamMembers []
      (fun n _ => by simp [dkeys]) hnd]
    rfl
  exact foldl_preserve_keys s.teamMembers _
    (fun acc f hacc => by
      have hq := (query_parallel_one_entry_per_member s.teamMembers
        (fun _ => dTmpl s.goal f.str
          (if s.clarifications = [] then ""
           else "Questions:\n" ++ (dget s.clarifications "questions").getD ""
             ++ "\n\nAnswers:\n" ++ (dget s.clarifications "answers").getD ""))
        chat hnd).1
      exact Eq.trans
        (dkeys_foldl_dset_preserve (fun d p => dset ((dget d p.1).getD []) f p.2) _ _
          (fun p hp => by
            rw [hacc, ← hq]
            exact List.mem_map_of_mem Prod.fst hp))
        hacc)
    s.output_files _ hinit

theorem reviewExec_fields (rTmpl : String → String → String → String)
    (chat : String → String → Except String String) (s : WfState) :
    ∀ s' log, reviewExec rTmpl chat s = .ok (s', log) →
      s'.drafts = s.drafts ∧ s'.outputs = s.outputs ∧
      s'.output_files = s.output_files ∧ s'.teamMembers = s.teamMembers := by
  intro s' log h
  simp only [reviewExec, Except.ok.injEq, Prod.mk.injEq] at h
  obtain ⟨hs, _⟩ := h
  subst hs
  exact ⟨rfl, rfl, rfl, rfl⟩

theorem dset_length_not_mem {κ α : Type} [DecidableEq κ]
    (d : List (κ × α)) (k : κ) (v : α)
    (h : k ∉ dkeys d) : (dset d k v).length = d.length + 1 := by
  induction d with
  | nil => rfl
  | cons hd tl ih =>
      simp only [dkeys, List.map_cons, List.mem_cons] at h
      push_neg at h
      obtain ⟨k', v'⟩ := hd
      simp only at h
      have h2 := ih h.2
      simp [dset, if_neg (Ne.symm h.1), h2]

theorem synthFilesInner_ok_length (res : String → String)
    (sTmpl : String → String → String)
    (chat : String → String → Except String String) (synthName : String)
    (drafts : List (String × List (PKey × String)))
    (reviews : List (String × List (String × String))) :
    ∀ (files : List PKey) (outs : List (PKey × String)) (log : List (String × String))
      (outs' : List (PKey × String)) (log' : List (String × String)),
      (files.map (fun f => PKey.ppath (res f.toPath.str))).Nodup →
      (∀ f ∈ files, PKey.ppath (res f.toPath.str) ∉ dkeys outs) →
      synthFilesInner res sTmpl chat synthName drafts reviews files outs log
        = .ok (outs', log') →
      outs'.length = outs.length + files.length := by
  intro files
  induction files with
  | nil =>
      intro outs log outs' log' _ _ h
      simp only [synthFilesInner, Except.ok.injEq, Prod.mk.injEq] at h
      rw [← h.1]
      simp
  | cons f rest ih =>
      intro outs log outs' log' hnd hfresh h
      simp only [List.map_cons] at hnd
      obtain ⟨hnotin, hndrest⟩ := List.nodup_cons.mp hnd
      simp only [synthFilesInner] at h
      split at h
      · exact Except.noConfusion h
      · rename_i blocks hcol
        split at h
        · exact Except.noConfusion h
        · split at h
          · exact Except.noConfusion h
          · rename_i content hchat
            have hfkey : PKey.ppath (res f.toPath.str) ∉ dkeys outs :=
              hfresh f (List.mem_cons_self _ _)
            have hlen := ih (dset outs (PKey.ppath (res f.toPath.str)) content)
              (log ++ [(synthName, sTmpl (res f.toPath.str)
                (String.intercalate "\n\n" blocks))])
              outs' log' hndrest
              (fun g hg => by
                rw [dkeys_dset_not_mem _ _ _ hfkey]
                simp only [List.mem_append, List.mem_singleton]
                push_neg
                refine ⟨hfresh g (List.mem_cons_of_mem _ hg), ?_⟩
                intro hEq
                exact hnotin
                  (hEq ▸ List.mem_map_of_mem (fun f => PKey.ppath (res f.toPath.str)) hg))
              h
            rw [hlen, dset_length_not_mem _ _ _ hfkey]
            simp only [List.length_cons]
            omega

theorem synthesizeExec_ok_outputs (res : String → String)
    (sTmpl : String → String → String)
    (chat : String → String → Except String String) (s : WfState)
    (hnd : (s.output_files.map (fun f => PKey.ppath (res f.toPath.str))).Nodup)
    (hfresh : ∀ f ∈ s.output_files,
      PKey.ppath (res f.toPath.str) ∉ dkeys s.outputs) :
    ∀ s' log, synthesizeExec res sTmpl chat s = .ok (s', log) →
      s'.outputs.length = s.outputs.length + s.output_files.length ∧
      s'.drafts = s.drafts := by
  intro s' log h
  simp only [synthesizeExec] at h
  split at h
  · exact Except.noConfusion h
  · rename_i nm hsel
    split at h
    · exact Except.noConfusion h
    · rename_i outs0 log0 hinner
      simp only [Except.ok.injEq, Prod.mk.injEq] at h
      obtain ⟨hs, _⟩ := h
      subst hs
      refine ⟨?_, rfl⟩
      exact synthFilesInner_ok_length res sTmpl chat nm s.drafts s.reviews
        s.output_files s.outputs [] outs0 log0 hnd hfresh hinner

theorem sequential4_ok (j1 j2 j3 j4 : WfState → Except PyExn (WfState × List (String × String)))
    (s s' : WfState) (log : List (String × String))
    (h : sequentialExec [j1, j2, j3, j4] s = .ok (s', log)) :
    ∃ s1 l1 s2 l2 s3 l3 l4,
      j1 s = .ok (s1, l1) ∧ j2 s1 = .ok (s2, l2) ∧ j3 s2 = .ok (s3, l3) ∧
      j4 s3 = .ok (s', l4) := by
  simp only [sequentialExec] at h
  split at h
  · exact Except.noConfusion h
  · rename_i s1 l1 h1
    split at h
    · exact Except.noConfusion h
    · rename_i sr lr hrest1
      simp only [Except.ok.injEq, Prod.mk.injEq] at h
      obtain ⟨hs, _⟩ := h
      subst hs
      split at hrest1
      · exact Except.noConfusion hrest1
      · rename_i s2 l2 h2
        split at hrest1
        · exact Except.noConfusion hrest1
        · rename_i sr2 lr2 hrest2
          simp only [Except.ok.injEq, Prod.mk.injEq] at hrest1
          obtain ⟨hs2, _⟩ := hrest1
          subst hs2
          split at hrest2
          · exact Except.noConfusion hrest2
          · rename_i s3 l3 h3
            split at hrest2
            · exact Except.noConfusion hrest2
            · rename_i sr3 lr3 hrest3
              simp only [Except.ok.injEq, Prod.mk.injEq] at hrest2
              obtain ⟨hs3, _⟩ := hrest2
              subst hs3
              split at hrest3
              · exact Except.noConfusion hrest3
              · rename_i s4 l4 h4
                simp only [Except.ok.injEq, Prod.mk.injEq] at hrest3
                obtain ⟨hs4, _⟩ := hrest3
                subst hs4
                exact ⟨s1, l1, s2, l2, s3, l3, l4, h1, h2, h3, h4⟩

/-- C9: after the full four-phase Sequential pipeline succeeds on a state
with M (distinct) team members, N output files (distinct after path
resolution) and empty initial drafts/outputs, the final drafts map has
exactly one entry per team member — its key list equals the member list,
because the Draft phase initializes `drafts[name]` for every member before
its per-file loop — and the final outputs map has exactly one entry per
requested output file. -/
theorem pipeline_drafts_outputs_counts
    (qTmpl : String → String → String → String → String)
    (dTmpl rTmpl : String → String → String → String)
    (sTmpl : String → String → String) (contextStr : String)
    (res : String → String) (chat : String → String → Except String String)
    (userChat : String → Except String String) (s : WfState)
    (hnd : s.teamMembers.Nodup) (hd0 : s.drafts = []) (ho0 : s.outputs = [])
    (hfiles : (s.output_files.map (fun f => PKey.ppath (res f.toPath.str))).Nodup) :
    ∀ s' log,
      sequentialExec
        (defaultPipeline qTmpl dTmpl rTmpl sTmpl contextStr res chat userChat) s
        = .ok (s', log) →
      dkeys s'.drafts = s.teamMembers ∧ s'.outputs.length = s.output_files.length := by
  intro s' log h
  obtain ⟨s1, l1, s2, l2, s3, l3, l4, hclar, hdraft, hrev, hsynth⟩ :=
    sequential4_ok _ _ _ _ s s' log (by simpa [defaultPipeline] using h)
  obtain ⟨c_drafts, c_outs, c_files, c_team, _, _⟩ :=
    clarifyExec_fields qTmpl contextStr chat userChat s s1 l1 hclar
  obtain ⟨d_keys, d_outs, d_files, d_team, _⟩ :=
    draftExec_keys dTmpl chat s1 (c_team ▸ hnd) (c_drafts.trans hd0) s2 l2 hdraft
  obtain ⟨r_drafts, r_outs, r_files, r_team⟩ :=
    reviewExec_fields rTmpl chat s2 s3 l3 hrev
  obtain ⟨sy_len, sy_drafts⟩ :=
    synthesizeExec_ok_outputs res sTmpl chat s3
      (by rw [r_files, d_files, c_files]; exact hfiles)
      (fun f _ => by
        rw [r_outs, d_outs, c_outs, ho0]
        simp [dkeys])
      s' l4 hsynth
  constructor
  · rw [sy_drafts, r_drafts, d_keys, c_team]
  · rw [sy_len, r_outs, d_outs, c_outs, ho0, r_files, d_files, c_files]
    simp

theorem pipeline_drafts_outputs_counts_witness :
    (["alice"] : List String).Nodup ∧
    dkeys [("alice", [(PKey.ppath "/a", "x")])] = ["alice"] ∧
    ([(PKey.ppath "/a", "x")] : List (PKey × String)).length
      = ([PKey.ppath "/a"] : List PKey).length := by
  have h := pipeline_drafts_outputs_counts (fun _ _ _ _ => "Q") (fun _ _ _ => "D")
    (fun _ _ _ => "R") (fun _ _ => "S") "" (fun p => p) (fun _ _ => .ok "x")
    (fun _ => .ok "a")
    { goal := "g", output_files := [PKey.ppath "/a"], teamMembers := ["alice"]
      clarifications := [], drafts := [], reviews := [], outputs := [] }
    (by decide) rfl rfl (by decide)
    { goal := "g", output_files := [PKey.ppath "/a"], teamMembers := ["alice"]
      clarifications := [("questions", "alice\x27s Questions:\nx"), ("answers", "a")]
      drafts := [("alice", [(PKey.ppath "/a", "x")])]
      reviews := [("alice", [("alice", "x")])]
      outputs := [(PKey.ppath "/a", "x")] }
    [("alice", "Q"), ("alice", "D"), ("alice", "R"), ("alice", "S")]
    rfl
  exact ⟨by decide, h.1, h.2⟩

end Codeflow
